import Mathlib

/-!
Verification of the geometric-math core of the jefflinse/ray-tracer
repository: sphere intersection / normals (src/rt/objects.go) and the
pattern-evaluation pipeline (src/pattern.go), shallowly embedded over ℝ.

Machine floating point is modelled by real numbers; Go slices of float64
holding colors are modelled by `Option Color` so that the nil slice
returned by BlendedPattern.At is representable as `none`.
-/

namespace RT

/-- Tuples are 4-component homogeneous coordinates (points have w = 1,
vectors w = 0), modelled from the spec's external Coordinate Algebra
contract (spec section 6). -/
abbrev Tuple := Fin 4 → ℝ

/-- Transformation matrices are 4×4 affine maps, modelled from the spec's
external Transform contract (Inverse, Transpose, Apply). -/
abbrev Transformation := Matrix (Fin 4) (Fin 4) ℝ

/-- Modelled from the spec: a point has homogeneous component w = 1. -/
def NewPoint (x y z : ℝ) : Tuple := ![x, y, z, 1]

/-- Modelled from the spec: a vector has homogeneous component w = 0. -/
def NewVector (x y z : ℝ) : Tuple := ![x, y, z, 0]

/-- Modelled from the spec: the object-space origin point (0,0,0). -/
def Origin : Tuple := NewPoint 0 0 0

/-- Modelled from the spec: componentwise tuple subtraction. -/
def Tuple.Subtract (a b : Tuple) : Tuple := fun i => a i - b i

/-- Modelled from the spec: dot product over all four components. -/
def Tuple.Dot (a b : Tuple) : ℝ := ∑ i, a i * b i

/-- Modelled from the spec: euclidean magnitude of a tuple. -/
noncomputable def Tuple.Magnitude (a : Tuple) : ℝ := Real.sqrt (a.Dot a)

/-- Modelled from the spec: normalization divides every component by the
magnitude. -/
noncomputable def Tuple.Normalize (a : Tuple) : Tuple :=
fun i => a i / a.Magnitude

/-- Modelled from the spec: the x coordinate accessor `X()`. -/
def Tuple.X (a : Tuple) : ℝ := a 0

/-- Modelled from the spec: the y coordinate accessor `Y()`. -/
def Tuple.Y (a : Tuple) : ℝ := a 1

/-- Modelled from the spec: the z coordinate accessor `Z()`. -/
def Tuple.Z (a : Tuple) : ℝ := a 2

/-- Modelled from the spec: `NewTransform()` is the identity transform. -/
def NewTransform : Transformation := 1

/-- A Ray has an origin point and a direction vector (spec section 3). -/
structure Ray where
  Origin : Tuple
  Direction : Tuple

/-- Modelled from the spec: `Ray.Transform` produces a new ray by applying
the matrix to the origin and the direction. -/
def Ray.Transform (r : Ray) (m : Transformation) : Ray :=
  ⟨m.mulVec r.Origin, m.mulVec r.Direction⟩

/-- A Sphere is a unit sphere in object space whose only per-instance
state is its Transform (src/rt/objects.go lines 7-10). -/
structure Sphere where
  Transform : Transformation

/-- NewSphere gives the sphere the identity transform
(src/rt/objects.go lines 12-17). -/
def NewSphere : Sphere := ⟨NewTransform⟩

/-- Assigning the public `Transform` field of a Sphere: an unconditional
store, the only way the source sets a sphere's transform. -/
def Sphere.SetTransform (s : Sphere) (t : Transformation) : Sphere :=
  { s with Transform := t }

/-- An Intersection records a distance t and the shape hit
(src/rt/objects.go via NewIntersection). -/
structure Intersection where
  t : ℝ
  object : Sphere

/-- NewIntersection builds an Intersection record. -/
def NewIntersection (t : ℝ) (s : Sphere) : Intersection := ⟨t, s⟩

/-- An IntersectionSet is an ordered sequence of Intersections. -/
abbrev IntersectionSet := List Intersection

/-- Sphere.Intersect, embedded from src/rt/objects.go lines 20-37:
transform the ray by the inverse of the sphere's transform, form the
quadratic coefficients, return [] on negative discriminant and the two
roots (smaller-root formula first) otherwise. -/
noncomputable def Sphere.Intersect (s : Sphere) (ray : Ray) : IntersectionSet :=
  let r := ray.Transform s.Transform⁻¹
  let sphereToRay := r.Origin.Subtract Origin
  let a := r.Direction.Dot r.Direction
  let b := 2 * r.Direction.Dot sphereToRay
  let c := sphereToRay.Dot sphereToRay - 1
  let discriminant := b ^ 2 - 4 * a * c
  if discriminant < 0 then []
  else
    [NewIntersection ((-b - Real.sqrt discriminant) / (2 * a)) s,
     NewIntersection ((-b + Real.sqrt discriminant) / (2 * a)) s]

/-- Sphere.NormalAt, embedded from src/rt/objects.go lines 39-46:
inverse-transform the world point, subtract the origin, map through the
inverse-transpose, zero the homogeneous component, normalize. -/
noncomputable def Sphere.NormalAt (s : Sphere) (worldPoint : Tuple) : Tuple :=
  let objectPoint : Tuple := (s.Transform⁻¹).mulVec worldPoint
  let objectNormal : Tuple := objectPoint.Subtract Origin
  let worldNormal : Tuple := (s.Transform⁻¹).transpose.mulVec objectNormal
  let worldNormal2 : Tuple := fun i => if i = 3 then 0 else worldNormal i
  worldNormal2.Normalize

/-- A Color has three channels (spec section 3: external Color contract). -/
structure Color where
  r : ℝ
  g : ℝ
  b : ℝ

/-- NewColor builds a color from its three channels. -/
def NewColor (r g b : ℝ) : Color := ⟨r, g, b⟩

/-- Modelled from the spec: channel-wise color addition. -/
def Color.Add (c d : Color) : Color := ⟨c.r + d.r, c.g + d.g, c.b + d.b⟩

/-- Modelled from the spec: channel-wise color subtraction. -/
def Color.Subtract (c d : Color) : Color := ⟨c.r - d.r, c.g - d.g, c.b - d.b⟩

/-- Modelled from the spec: scalar multiplication of a color. -/
def Color.Multiply (c : Color) (s : ℝ) : Color := ⟨c.r * s, c.g * s, c.b * s⟩

/-- Modelled from the spec: AverageBlend is the channel-wise mean of two
colors. -/
noncomputable def Color.AverageBlend (c d : Color) : Color :=
  ⟨(c.r + d.r) / 2, (c.g + d.g) / 2, (c.b + d.b) / 2⟩

/-- Color constant black (src/pattern.go line 8). -/
def black : Color := NewColor 0 0 0

/-- Color constant white (src/pattern.go line 9). -/
def white : Color := NewColor 1 1 1

/-- The pattern hierarchy of src/pattern.go as a tagged variant: Solid,
Stripe, Gradient, Ring, Checker and Blended, each carrying its Transform
(set to the identity by its constructor, mutable via SetTransform) and
its child patterns. Blended stores its children in its own patternA and
patternB fields (source lines 71-76). -/
inductive Pattern : Type where
  | solid (transform : Transformation) (color : Color)
  | stripe (transform : Transformation) (A B : Pattern)
  | gradient (transform : Transformation) (A B : Pattern)
  | ring (transform : Transformation) (A B : Pattern)
  | checker (transform : Transformation) (A B : Pattern)
  | blended (transform : Transformation) (patternA patternB : Pattern)

/-- GetTransform returns the pattern's transformation
(src/pattern.go lines 36-39). -/
def Pattern.GetTransform : Pattern → Transformation
  | .solid t _ => t
  | .stripe t _ _ => t
  | .gradient t _ _ => t
  | .ring t _ _ => t
  | .checker t _ _ => t
  | .blended t _ _ => t

/-- SetTransform stores the given transformation unconditionally
(src/pattern.go lines 41-44: a plain field assignment). -/
def Pattern.SetTransform : Pattern → Transformation → Pattern
  | .solid _ c, t => .solid t c
  | .stripe _ a b, t => .stripe t a b
  | .gradient _ a b, t => .gradient t a b
  | .ring _ a b, t => .ring t a b
  | .checker _ a b, t => .checker t a b
  | .blended _ a b, t => .blended t a b

/-- At, dispatched on the concrete variant (src/pattern.go): Solid returns
its color; Stripe tests ⌊x⌋ % 2 (Go truncated remainder) and delegates to
A or B; Gradient computes A + (B − A)·(x − ⌊x⌋); Ring tests
⌊√(x²+z²)⌋ % 2; Checker tests (⌊x⌋+⌊y⌋+⌊z⌋) % 2; Blended returns nil,
modelled as none. Child results are Go nil-able Colors, hence Option. -/
noncomputable def Pattern.At : Pattern → Tuple → Option Color
  | .solid _ c, _ => some c
  | .stripe _ a b, point =>
      if Int.tmod ⌊point.X⌋ 2 = 0 then a.At point else b.At point
  | .gradient _ a b, point =>
      (b.At point).bind fun cb =>
        (a.At point).bind fun ca =>
          (a.At point).bind fun ca2 =>
            some (ca2.Add ((cb.Subtract ca).Multiply (point.X - ↑⌊point.X⌋)))
  | .ring _ a b, point =>
      if Int.tmod ⌊Real.sqrt (point.X ^ 2 + point.Z ^ 2)⌋ 2 = 0 then a.At point
      else b.At point
  | .checker _ a b, point =>
      if Int.tmod (⌊point.X⌋ + ⌊point.Y⌋ + ⌊point.Z⌋) 2 = 0 then a.At point
      else b.At point
  | .blended _ _ _, _ => none

/-- PatternProps.AtObject, the shared dispatch body
(src/pattern.go lines 46-51): world → object via the shape's inverse
transform, object → pattern via the pattern's own inverse transform, then
the concrete variant's At. -/
noncomputable def Pattern.sharedAtObject (p : Pattern) (object : Sphere)
    (worldPoint : Tuple) : Option Color :=
  let localPoint : Tuple := (object.Transform⁻¹).mulVec worldPoint
  let patternPoint : Tuple := ((p.GetTransform)⁻¹).mulVec localPoint
  p.At patternPoint

/-- AtObject as reached through the Pattern interface: BlendedPattern has
its own AtObject (src/pattern.go lines 85-93) — which takes patternA's
color at patternA's inverse transform of the local point, then takes
patternA's color again at the blended pattern's own inverse transform of
the local point, and average-blends the two — while every other variant
uses the shared PatternProps.AtObject body. -/
noncomputable def Pattern.AtObject : Pattern → Sphere → Tuple → Option Color
  | .blended t pa pb, object, worldPoint =>
      let localPoint : Tuple := (object.Transform⁻¹).mulVec worldPoint
      let patternPointA : Tuple := ((pa.GetTransform)⁻¹).mulVec localPoint
      (pa.At patternPointA).bind fun colorA =>
        let patternPointB : Tuple :=
          (((Pattern.blended t pa pb).GetTransform)⁻¹).mulVec localPoint
        (pa.At patternPointB).bind fun colorB =>
          some (colorA.AverageBlend colorB)
  | .solid t c, object, worldPoint =>
      (Pattern.solid t c).sharedAtObject object worldPoint
  | .stripe t a b, object, worldPoint =>
      (Pattern.stripe t a b).sharedAtObject object worldPoint
  | .gradient t a b, object, worldPoint =>
      (Pattern.gradient t a b).sharedAtObject object worldPoint
  | .ring t a b, object, worldPoint =>
      (Pattern.ring t a b).sharedAtObject object worldPoint
  | .checker t a b, object, worldPoint =>
      (Pattern.checker t a b).sharedAtObject object worldPoint

/-- IsBlended holds exactly of the Blended variant. -/
def Pattern.IsBlended : Pattern → Prop
  | .blended _ _ _ => True
  | _ => False

/-- NewSolidPattern (src/pattern.go lines 59-64): identity transform. -/
def NewSolidPattern (c : Color) : Pattern := .solid NewTransform c

/-- NewStripePattern (src/pattern.go lines 105-110): identity transform. -/
def NewStripePattern (a b : Pattern) : Pattern := .stripe NewTransform a b

/-- NewGradientPattern (src/pattern.go lines 126-131): identity transform. -/
def NewGradientPattern (a b : Pattern) : Pattern := .gradient NewTransform a b

/-- NewRingPattern (src/pattern.go lines 145-150): identity transform. -/
def NewRingPattern (a b : Pattern) : Pattern := .ring NewTransform a b

/-- NewCheckerPattern (src/pattern.go lines 166-171): identity transform. -/
def NewCheckerPattern (a b : Pattern) : Pattern := .checker NewTransform a b

/-- NewBlendedPattern (src/pattern.go lines 78-83): identity transform. -/
def NewBlendedPattern (a b : Pattern) : Pattern := .blended NewTransform a b

/-! ## Helper lemmas -/

lemma sqrt_four : Real.sqrt 4 = 2 := by
  rw [show (4:ℝ) = 2^2 by norm_num, Real.sqrt_sq (by norm_num : (0:ℝ) ≤ 2)]

lemma tmod_two_eq_zero_iff (n : ℤ) : Int.tmod n 2 = 0 ↔ n % 2 = 0 := by
  constructor
  · intro h
    have := Int.dvd_of_tmod_eq_zero h
    omega
  · intro h
    apply Int.tmod_eq_zero_of_dvd
    omega

lemma tmod_one_two : Int.tmod 1 2 = 1 := by decide

lemma tmod_neg_one_two : Int.tmod (-1) 2 = -1 := by decide

lemma inv_affine_row3 (M : Transformation) (hdet : IsUnit M.det)
    (haff : M 3 = ![0, 0, 0, 1]) : M⁻¹ 3 = ![0, 0, 0, 1] := by
  funext j
  have h : (M * M⁻¹) 3 j = (1 : Transformation) 3 j := by
    rw [Matrix.mul_nonsing_inv M hdet]
  rw [Matrix.mul_apply] at h
  simp only [haff, Fin.sum_univ_four, Matrix.cons_val_zero, Matrix.cons_val_one,
    Matrix.head_cons, Matrix.cons_val_two, Matrix.tail_cons,
    Matrix.cons_val_three] at h
  rw [Matrix.one_apply] at h
  fin_cases j <;> simpa using h

lemma normalize_eq_self (a : Tuple) (h : a.Dot a = 1) : a.Normalize = a := by
  funext i
  rw [Tuple.Normalize]
  rw [Tuple.Magnitude, h, Real.sqrt_one, div_one]

set_option maxHeartbeats 1000000 in
lemma normalAt_unit (s : Sphere) (wp : Tuple) (hdet : IsUnit s.Transform.det)
    (haff : s.Transform 3 = ![0, 0, 0, 1]) (hw : wp 3 = 1)
    (hsph : ((s.Transform⁻¹).mulVec wp 0) ^ 2 + ((s.Transform⁻¹).mulVec wp 1) ^ 2 +
      ((s.Transform⁻¹).mulVec wp 2) ^ 2 = 1) :
    (s.NormalAt wp).Magnitude = 1 ∧ s.NormalAt wp 3 = 0 := by
  have hrow : s.Transform⁻¹ 3 = ![0, 0, 0, 1] := inv_affine_row3 _ hdet haff
  set M := s.Transform with hM
  set op : Tuple := (M⁻¹).mulVec wp with hop
  set obn : Tuple := op.Subtract Origin with hobn
  set wn : Tuple := (M⁻¹).transpose.mulVec obn with hwn
  set z : Tuple := (fun i => if i = 3 then 0 else wn i) with hz
  have hNA : s.NormalAt wp = z.Normalize := rfl
  have hobn0 : obn 0 = op 0 := by simp [hobn, Tuple.Subtract, Origin, NewPoint]
  have hobn1 : obn 1 = op 1 := by simp [hobn, Tuple.Subtract, Origin, NewPoint]
  have hobn2 : obn 2 = op 2 := by simp [hobn, Tuple.Subtract, Origin, NewPoint]
  have hsph' : obn 0 ^ 2 + obn 1 ^ 2 + obn 2 ^ 2 = 1 := by
    rw [hobn0, hobn1, hobn2]; exact hsph
  -- recover the object normal from the world normal
  have hrec : (M.transpose).mulVec wn = obn := by
    rw [hwn, Matrix.mulVec_mulVec, ← Matrix.transpose_mul,
      Matrix.nonsing_inv_mul M hdet, Matrix.transpose_one, Matrix.one_mulVec]
  -- the zeroed world normal, componentwise
  have hz0 : z 0 = wn 0 := by rw [hz]; simp
  have hz1 : z 1 = wn 1 := by rw [hz]; simp
  have hz2 : z 2 = wn 2 := by rw [hz]; simp
  have hz3 : z 3 = 0 := by rw [hz]; simp
  -- the zeroed world normal is not the zero vector
  have hzz : z.Dot z = wn 0 ^ 2 + wn 1 ^ 2 + wn 2 ^ 2 := by
    simp only [Tuple.Dot, Fin.sum_univ_four, hz0, hz1, hz2, hz3]
    ring
  have hpos : 0 < z.Dot z := by
    rcases lt_or_eq_of_le (by positivity : (0:ℝ) ≤ wn 0 ^ 2 + wn 1 ^ 2 + wn 2 ^ 2) with h | h
    · rw [hzz]; exact h
    · exfalso
      have h0 : wn 0 = 0 := by nlinarith [sq_nonneg (wn 0), sq_nonneg (wn 1), sq_nonneg (wn 2)]
      have h1 : wn 1 = 0 := by nlinarith [sq_nonneg (wn 0), sq_nonneg (wn 1), sq_nonneg (wn 2)]
      have h2 : wn 2 = 0 := by nlinarith [sq_nonneg (wn 0), sq_nonneg (wn 1), sq_nonneg (wn 2)]
      have hcol : ∀ i : Fin 4, obn i = M 3 i * wn 3 := by
        intro i
        rw [← hrec]
        show ∑ j, M.transpose i j * wn j = _
        simp only [Fin.sum_univ_four, Matrix.transpose_apply, h0, h1, h2]
        ring
      have e0 : obn 0 = 0 := by rw [hcol 0, haff]; norm_num
      have e1 : obn 1 = 0 := by rw [hcol 1, haff]; norm_num
      have e2 : obn 2 = 0 := by rw [hcol 2, haff]; norm_num
      rw [e0, e1, e2] at hsph'
      norm_num at hsph'
  have hmagz : 0 < z.Magnitude := Real.sqrt_pos.mpr hpos
  have hm : z.Magnitude * z.Magnitude = z.Dot z := Real.mul_self_sqrt hpos.le
  constructor
  · rw [hNA]
    have key : (z.Normalize).Dot (z.Normalize) =
        z.Dot z / (z.Magnitude * z.Magnitude) := by
      simp only [Tuple.Normalize, Tuple.Dot, Fin.sum_univ_four,
        div_mul_div_comm, div_add_div_same]
    have hdotn : (z.Normalize).Dot (z.Normalize) = 1 := by
      rw [key, hm, div_self hpos.ne']
    rw [Tuple.Magnitude, hdotn, Real.sqrt_one]
  · rw [hNA]
    simp [Tuple.Normalize, hz]

/-! ## Claim theorems -/

/-- Claim C2: for every ray whose object-space quadratic (computed from the ray
transformed by the inverse of the sphere's transform) has discriminant
b² − 4ac < 0, Sphere.Intersect returns the empty IntersectionSet; otherwise
it returns exactly the two intersections at t = (−b − √disc)/(2a) then
t = (−b + √disc)/(2a), both referencing the intersected sphere. -/
theorem sphere_intersect_discriminant_cases (s : Sphere) (ray : Ray)
    (r : Ray) (oc : Tuple) (a b c disc : ℝ)
    (hr : r = ray.Transform s.Transform⁻¹)
    (hoc : oc = r.Origin.Subtract Origin)
    (ha : a = r.Direction.Dot r.Direction)
    (hb : b = 2 * r.Direction.Dot oc)
    (hc : c = oc.Dot oc - 1)
    (hd : disc = b ^ 2 - 4 * a * c) :
    (disc < 0 → s.Intersect ray = []) ∧
    (0 ≤ disc → s.Intersect ray =
      [NewIntersection ((-b - Real.sqrt disc) / (2 * a)) s,
       NewIntersection ((-b + Real.sqrt disc) / (2 * a)) s]) := by
  subst hr hoc ha hb hc hd
  constructor
  · intro h
    simp only [Sphere.Intersect]
    rw [if_pos h]
  · intro h
    simp only [Sphere.Intersect]
    rw [if_neg (not_lt.mpr h)]

/-- Witness for C2: a concrete miss (discriminant −12) and a concrete hit
(discriminant 4) obtained from the theorem. -/
theorem sphere_intersect_discriminant_cases_witness :
    NewSphere.Intersect ⟨NewPoint 0 2 (-5), NewVector 0 0 1⟩ = [] ∧
    NewSphere.Intersect ⟨NewPoint 0 0 (-5), NewVector 0 0 1⟩ =
      [NewIntersection 4 NewSphere, NewIntersection 6 NewSphere] := by
  constructor
  · exact (sphere_intersect_discriminant_cases NewSphere
      ⟨NewPoint 0 2 (-5), NewVector 0 0 1⟩
      ⟨NewPoint 0 2 (-5), NewVector 0 0 1⟩ (NewVector 0 2 (-5)) 1 (-10) 28 (-12)
      (by simp [Ray.Transform, NewSphere, NewTransform, inv_one, Matrix.one_mulVec])
      (by funext i; fin_cases i <;>
        norm_num [Tuple.Subtract, NewPoint, NewVector, Origin])
      (by norm_num [Tuple.Dot, NewVector, Fin.sum_univ_four])
      (by norm_num [Tuple.Dot, NewVector, Fin.sum_univ_four])
      (by norm_num [Tuple.Dot, NewVector, Fin.sum_univ_four])
      (by norm_num)).1 (by norm_num)
  · have h := (sphere_intersect_discriminant_cases NewSphere
      ⟨NewPoint 0 0 (-5), NewVector 0 0 1⟩
      ⟨NewPoint 0 0 (-5), NewVector 0 0 1⟩ (NewVector 0 0 (-5)) 1 (-10) 24 4
      (by simp [Ray.Transform, NewSphere, NewTransform, inv_one, Matrix.one_mulVec])
      (by funext i; fin_cases i <;>
        norm_num [Tuple.Subtract, NewPoint, NewVector, Origin])
      (by norm_num [Tuple.Dot, NewVector, Fin.sum_univ_four])
      (by norm_num [Tuple.Dot, NewVector, Fin.sum_univ_four])
      (by norm_num [Tuple.Dot, NewVector, Fin.sum_univ_four])
      (by norm_num)).2 (by norm_num)
    rw [h]
    norm_num [sqrt_four, NewIntersection]

/-- Claim C3: on a sphere with the identity transform, the ray from (0,0,−5)
along +z hits at t = 4 then t = 6, and the ray from the origin along +z
hits at t = −1 then t = 1. -/
theorem sphere_intersect_concrete :
    NewSphere.Intersect ⟨NewPoint 0 0 (-5), NewVector 0 0 1⟩ =
      [NewIntersection 4 NewSphere, NewIntersection 6 NewSphere] ∧
    NewSphere.Intersect ⟨NewPoint 0 0 0, NewVector 0 0 1⟩ =
      [NewIntersection (-1) NewSphere, NewIntersection 1 NewSphere] := by
  constructor
  · simp only [Sphere.Intersect, NewSphere, NewTransform, inv_one, Ray.Transform,
      Matrix.one_mulVec, Tuple.Subtract, Tuple.Dot, Origin, NewPoint, NewVector,
      Fin.sum_univ_four, Matrix.cons_val_zero, Matrix.cons_val_one,
      Matrix.head_cons, Matrix.cons_val_two, Matrix.tail_cons,
      Matrix.cons_val_three]
    norm_num [sqrt_four, NewIntersection]
  · simp only [Sphere.Intersect, NewSphere, NewTransform, inv_one, Ray.Transform,
      Matrix.one_mulVec, Tuple.Subtract, Tuple.Dot, Origin, NewPoint, NewVector,
      Fin.sum_univ_four, Matrix.cons_val_zero, Matrix.cons_val_one,
      Matrix.head_cons, Matrix.cons_val_two, Matrix.tail_cons,
      Matrix.cons_val_three]
    norm_num [sqrt_four, NewIntersection]

/-- Claim C5: for every non-Blended pattern variant, AtObject is the two-stage
mapping: inverse shape transform from world to object space, inverse
pattern transform from object to pattern space, then the concrete
variant's At. -/
theorem pattern_atObject_two_stage (p : Pattern) (object : Sphere)
    (worldPoint : Tuple) (hp : ¬ p.IsBlended) :
    p.AtObject object worldPoint =
      p.At (((p.GetTransform)⁻¹).mulVec ((object.Transform⁻¹).mulVec worldPoint)) := by
  cases p with
  | blended t a b => exact absurd trivial hp
  | solid t c => rfl
  | stripe t a b => rfl
  | gradient t a b => rfl
  | ring t a b => rfl
  | checker t a b => rfl

/-- Witness for C5: the two-stage mapping at a concrete solid pattern,
sphere and point. -/
theorem pattern_atObject_two_stage_witness :
    ¬ (NewSolidPattern white).IsBlended ∧
    (NewSolidPattern white).AtObject NewSphere (NewPoint 1 2 3) =
      (NewSolidPattern white).At
        ((((NewSolidPattern white).GetTransform)⁻¹).mulVec
          ((NewSphere.Transform⁻¹).mulVec (NewPoint 1 2 3))) :=
  ⟨by simp [NewSolidPattern, Pattern.IsBlended],
   pattern_atObject_two_stage _ _ _ (by simp [NewSolidPattern, Pattern.IsBlended])⟩

/-- Counterexample for C9: setting a singular transform is not rejected — the
zero matrix is not invertible, yet SetTransform on a pattern and the
transform store on a sphere both accept it unchanged. -/
theorem setTransform_accepts_singular :
    (NewSolidPattern white).SetTransform 0 = Pattern.solid 0 white ∧
    (NewSphere.SetTransform 0).Transform = 0 ∧
    ¬ IsUnit (Matrix.det (0 : Transformation)) := by
  refine ⟨rfl, rfl, ?_⟩
  rw [Matrix.det_zero ⟨(0 : Fin 4)⟩]
  simp

/-- Amended C9: SetTransform stores the given transform unconditionally;
no invertibility validation happens at set time, on patterns or spheres. -/
theorem setTransform_stores_unconditionally :
    (∀ (p : Pattern) (t : Transformation), (p.SetTransform t).GetTransform = t) ∧
    (∀ (s : Sphere) (t : Transformation), (s.SetTransform t).Transform = t) := by
  constructor
  · intro p t
    cases p <;> rfl
  · intro s t
    rfl

/-- Claim C10: BlendedPattern.At always returns nil (none), both when invoked
directly and through the shared PatternProps.AtObject dispatch body, so it
never produces a usable color. -/
theorem blendedPattern_at_returns_none :
    (∀ (t : Transformation) (a b : Pattern) (point : Tuple),
      (Pattern.blended t a b).At point = none) ∧
    (∀ (t : Transformation) (a b : Pattern) (object : Sphere) (worldPoint : Tuple),
      (Pattern.blended t a b).sharedAtObject object worldPoint = none) :=
  ⟨fun _ _ _ _ => rfl, fun _ _ _ _ _ => rfl⟩

lemma normalAt_identity (x y z : ℝ) :
    NewSphere.NormalAt (NewPoint x y z) = Tuple.Normalize ![x, y, z, 0] := by
  have hv : (fun i => if i = 3 then (0:ℝ)
      else (((NewPoint x y z).Subtract Origin) i)) = (![x, y, z, 0] : Tuple) := by
    funext i
    fin_cases i <;> simp [Tuple.Subtract, NewPoint, Origin]
  simp only [Sphere.NormalAt, NewSphere, NewTransform, inv_one,
    Matrix.transpose_one, Matrix.one_mulVec]
  rw [hv]

/-- Claim C4: NormalAt maps the world point to object space by the inverse
transform, takes the object normal as that point minus the origin, maps it
by the inverse-transpose, zeroes the homogeneous component and normalizes,
so on a valid input (invertible affine transform, point on the sphere) the
result has unit magnitude and w = 0; the three identity-transform
examples evaluate to the same vectors as their inputs. -/
theorem sphere_normalAt_spec :
    (∀ (s : Sphere) (wp : Tuple), IsUnit s.Transform.det →
      s.Transform 3 = ![0, 0, 0, 1] → wp 3 = 1 →
      ((s.Transform⁻¹).mulVec wp 0) ^ 2 + ((s.Transform⁻¹).mulVec wp 1) ^ 2 +
        ((s.Transform⁻¹).mulVec wp 2) ^ 2 = 1 →
      (s.NormalAt wp).Magnitude = 1 ∧ s.NormalAt wp 3 = 0) ∧
    NewSphere.NormalAt (NewPoint 1 0 0) = NewVector 1 0 0 ∧
    NewSphere.NormalAt (NewPoint 0 1 0) = NewVector 0 1 0 ∧
    NewSphere.NormalAt
        (NewPoint (Real.sqrt 3 / 3) (Real.sqrt 3 / 3) (Real.sqrt 3 / 3)) =
      NewVector (Real.sqrt 3 / 3) (Real.sqrt 3 / 3) (Real.sqrt 3 / 3) := by
  have hs3 : (Real.sqrt 3 / 3) * (Real.sqrt 3 / 3) = 1 / 3 := by
    rw [div_mul_div_comm, Real.mul_self_sqrt (by norm_num : (0:ℝ) ≤ 3)]
    norm_num
  refine ⟨fun s wp hdet haff hw hsph => normalAt_unit s wp hdet haff hw hsph,
    ?_, ?_, ?_⟩
  · rw [normalAt_identity, normalize_eq_self _ (by
      norm_num [Tuple.Dot, Fin.sum_univ_four])]
    rfl
  · rw [normalAt_identity, normalize_eq_self _ (by
      norm_num [Tuple.Dot, Fin.sum_univ_four])]
    rfl
  · rw [normalAt_identity, normalize_eq_self _ (by
      norm_num [Tuple.Dot, Fin.sum_univ_four, hs3])]
    rfl

/-- Witness for C4: the general normal property at the identity sphere and
the surface point (0,0,1). -/
theorem sphere_normalAt_spec_witness :
    (NewSphere.NormalAt (NewPoint 0 0 1)).Magnitude = 1 ∧
      NewSphere.NormalAt (NewPoint 0 0 1) 3 = 0 :=
  sphere_normalAt_spec.1 NewSphere (NewPoint 0 0 1)
    (by simp [NewSphere, NewTransform])
    (by funext j; fin_cases j <;> simp [NewSphere, NewTransform, Matrix.one_apply])
    (by simp [NewPoint])
    (by norm_num [NewSphere, NewTransform, inv_one, Matrix.one_mulVec, NewPoint])

/-- Claim C1 is false of the code (the spec calls this a defect): at the blended
pattern over solid white (child A) and solid black (child B) on an
identity sphere at the world origin, AtObject returns white — child A's
color averaged with child A's color — while the claimed average of the two
children's colors is (0.5, 0.5, 0.5) ≠ white. Child B is never
evaluated. -/
theorem blendedPattern_evaluates_child_a_twice :
    (NewBlendedPattern (NewSolidPattern white) (NewSolidPattern black)).AtObject
        NewSphere (NewPoint 0 0 0) = some white ∧
    white.AverageBlend black = NewColor 0.5 0.5 0.5 ∧
    white ≠ NewColor 0.5 0.5 0.5 := by
  refine ⟨?_, ?_, ?_⟩
  · simp only [NewBlendedPattern, NewSolidPattern, Pattern.AtObject, NewSphere,
      NewTransform, Pattern.GetTransform, inv_one, Matrix.one_mulVec, Pattern.At,
      Option.some_bind]
    norm_num [Color.AverageBlend, white, NewColor]
  · norm_num [Color.AverageBlend, white, black, NewColor]
  · norm_num [white, NewColor, Color.mk.injEq]

/-- Stripe(white, black), shared fixture for the stripe examples. -/
def stripeWB : Pattern := NewStripePattern (NewSolidPattern white) (NewSolidPattern black)

/-- Claim C6: StripePattern.At returns A's color exactly when ⌊x⌋ mod 2 = 0 and
B's otherwise (the Go truncated remainder agrees with the euclidean one on
the zero test), with the six Stripe(white, black) examples including
negative x. -/
theorem stripePattern_at_spec :
    (∀ (t : Transformation) (a b : Pattern) (point : Tuple),
      (Pattern.stripe t a b).At point =
        if ⌊point.X⌋ % 2 = 0 then a.At point else b.At point) ∧
    stripeWB.At (NewPoint 0 0 0) = some white ∧
    stripeWB.At (NewPoint 0.9 0 0) = some white ∧
    stripeWB.At (NewPoint 1 0 0) = some black ∧
    stripeWB.At (NewPoint (-0.1) 0 0) = some black ∧
    stripeWB.At (NewPoint (-1) 0 0) = some black ∧
    stripeWB.At (NewPoint (-1.1) 0 0) = some white := by
  refine ⟨fun t a b point => ?_, ?_, ?_, ?_, ?_, ?_, ?_⟩
  · simp only [Pattern.At, tmod_two_eq_zero_iff]
  all_goals
    norm_num [stripeWB, NewStripePattern, NewSolidPattern, Pattern.At,
      Tuple.X, NewPoint, tmod_one_two, tmod_neg_one_two]

/-- Gradient(white, black), shared fixture for the gradient examples. -/
def gradWB : Pattern := NewGradientPattern (NewSolidPattern white) (NewSolidPattern black)

/-- Claim C7: GradientPattern.At returns A + (x − ⌊x⌋)·(B − A) whenever both
children yield colors; the fraction always lies in [0,1), so the blend
repeats per unit cell; the four Gradient(white, black) examples hold. -/
theorem gradientPattern_at_spec :
    (∀ (t : Transformation) (a b : Pattern) (point : Tuple) (ca cb : Color),
      a.At point = some ca → b.At point = some cb →
      (Pattern.gradient t a b).At point =
        some (ca.Add ((cb.Subtract ca).Multiply (point.X - ↑⌊point.X⌋)))) ∧
    (∀ x : ℝ, 0 ≤ x - ↑⌊x⌋ ∧ x - ↑⌊x⌋ < 1) ∧
    gradWB.At (NewPoint 0 0 0) = some white ∧
    gradWB.At (NewPoint 0.25 0 0) = some (NewColor 0.75 0.75 0.75) ∧
    gradWB.At (NewPoint 0.5 0 0) = some (NewColor 0.5 0.5 0.5) ∧
    gradWB.At (NewPoint 0.75 0 0) = some (NewColor 0.25 0.25 0.25) := by
  refine ⟨fun t a b point ca cb hca hcb => ?_,
    fun x => ⟨by linarith [Int.floor_le x], by linarith [Int.lt_floor_add_one x]⟩,
    ?_, ?_, ?_, ?_⟩
  · simp only [Pattern.At, hca, hcb, Option.some_bind]
  all_goals
    norm_num [gradWB, NewGradientPattern, NewSolidPattern, Pattern.At,
      Tuple.X, NewPoint, Color.Add, Color.Subtract, Color.Multiply,
      white, black, NewColor, Color.mk.injEq]

/-- Witness for C7: the gradient formula instantiated at solid white and
solid black children at x = 0.25. -/
theorem gradientPattern_at_spec_witness :
    (Pattern.gradient NewTransform (NewSolidPattern white) (NewSolidPattern black)).At
        (NewPoint 0.25 0 0) =
      some (white.Add ((black.Subtract white).Multiply
        ((NewPoint 0.25 0 0).X - ↑⌊(NewPoint 0.25 0 0).X⌋))) :=
  gradientPattern_at_spec.1 NewTransform (NewSolidPattern white)
    (NewSolidPattern black) (NewPoint 0.25 0 0) white black
    (by simp [NewSolidPattern, Pattern.At]) (by simp [NewSolidPattern, Pattern.At])

/-- Checker(white, black), shared fixture for the checker examples. -/
def checkWB : Pattern := NewCheckerPattern (NewSolidPattern white) (NewSolidPattern black)

/-- Claim C8: CheckerPattern.At returns A's color exactly when
(⌊x⌋ + ⌊y⌋ + ⌊z⌋) mod 2 = 0 and B's otherwise, alternating independently
at integer boundaries on each axis, with the Checker(white, black)
examples along X, Y and Z. -/
theorem checkerPattern_at_spec :
    (∀ (t : Transformation) (a b : Pattern) (point : Tuple),
      (Pattern.checker t a b).At point =
        if (⌊point.X⌋ + ⌊point.Y⌋ + ⌊point.Z⌋) % 2 = 0 then a.At point
        else b.At point) ∧
    checkWB.At (NewPoint 0 0 0) = some white ∧
    checkWB.At (NewPoint 0.99 0 0) = some white ∧
    checkWB.At (NewPoint 1.01 0 0) = some black ∧
    checkWB.At (NewPoint 0 0.99 0) = some white ∧
    checkWB.At (NewPoint 0 1.01 0) = some black ∧
    checkWB.At (NewPoint 0 0 0.99) = some white ∧
    checkWB.At (NewPoint 0 0 1.01) = some black := by
  refine ⟨fun t a b point => ?_, ?_, ?_, ?_, ?_, ?_, ?_, ?_⟩
  · simp only [Pattern.At, tmod_two_eq_zero_iff]
  all_goals
    norm_num [checkWB, NewCheckerPattern, NewSolidPattern, Pattern.At,
      Tuple.X, Tuple.Y, Tuple.Z, NewPoint, tmod_one_two, tmod_neg_one_two]

end RT
